import Mathlib

/-!
# RedisBroker status lifecycle and trigger dispatch

A shallow embedding of

* `pkg/apis/eventing/v1alpha1/redisbroker_lifecycle.go` (condition set, `SetAddress`,
  `IsReady`, the `Mark...` wrappers, `PropagateRedisDeploymentAvailability`), and
* `pkg/reconciler/redisbroker/controller.go` (`filterTriggerForRedisBroker`,
  `enqueueFromTrigger`).

The lifecycle file delegates every condition mutation to a condition manager
(`apis.ConditionSet.Manage`) whose code is not part of the two source files; the manager is
modelled from section 4.2 of the specification and each such definition says so.
Wall-clock time (`LastTransitionTime`) is an explicit `now : Nat` argument.
-/

namespace TriggerMesh

/-! ## Data model -/

/-- The three values of a condition's status. -/
inductive ConditionStatus where
  | ConditionTrue
  | ConditionFalse
  | ConditionUnknown
deriving DecidableEq, Repr

open ConditionStatus

/-- One condition of a status: `{Type, Status, Reason, Message, LastTransitionTime}`. -/
structure Condition where
  Type_ : String
  Status : ConditionStatus
  Reason : String
  Message : String
  LastTransitionTime : Nat
deriving DecidableEq, Repr

/-- The address of a broker: `Address.URL` is a pointer, `none` is the nil URL. -/
structure Addressable where
  URL : Option String
deriving DecidableEq, Repr

/-- `RedisBrokerStatus`: the embedded status (observed generation, conditions) and the address. -/
structure RedisBrokerStatus where
  ObservedGeneration : Int
  Conditions : List Condition
  Address : Addressable
deriving DecidableEq, Repr

/-- `RedisBroker`: identity, generation and status. -/
structure RedisBroker where
  Namespace : String
  Name : String
  Generation : Int
  Status : RedisBrokerStatus
deriving DecidableEq, Repr

/-- An ordered list of dependent condition types plus the top-level (happy) type. -/
structure ConditionSet where
  happy : String
  dependents : List String
deriving DecidableEq, Repr

/-! ## Constants of `redisbroker_lifecycle.go` -/

/-- `apis.ConditionReady`, the top-level type of a living condition set. -/
def RedisBrokerConditionReady : String := "Ready"

def RedisBrokerRedisDeployment : String := "RedisDeploymentReady"

def RedisBrokerRedisService : String := "RedisServiceReady"

def RedisBrokerBrokerDeployment : String := "BrokerDeploymentReady"

def RedisBrokerBrokerService : String := "BrokerServiceReady"

def RedisBrokerConditionAddressable : String := "Addressable"

/-- Modelled from the spec: `NewLivingSet(dependentTypes...)` of section 4.1, the condition set
with the given dependent types in declaration order and `Ready` as top-level type. -/
def NewLivingConditionSet (d : List String) : ConditionSet :=
  { happy := RedisBrokerConditionReady, dependents := d }

/-- The declared condition set of the RedisBroker (lines 26-32). -/
def redisBrokerCondSet : ConditionSet :=
  NewLivingConditionSet
    [RedisBrokerRedisDeployment,
     RedisBrokerRedisService,
     RedisBrokerBrokerDeployment,
     RedisBrokerBrokerService,
     RedisBrokerConditionAddressable]

/-! ## Message formatting -/

/-- The operands no verb consumed, as `fmt.Sprintf` lists them: `string=a, string=b`. -/
def sprintfExtra : List String → List Char
  | [] => []
  | [a] => "string=".data ++ a.data
  | a :: b :: rest => "string=".data ++ a.data ++ ", ".data ++ sprintfExtra (b :: rest)

/-- Model of Go's `fmt.Sprintf`, which the condition manager applies to `messageFormat` and
`messageA...` (library code outside the source files), for string operands and the verbs this
program uses: `%s` and `%v` are replaced by the next operand, `%%` is a percent sign, a verb
with no operand left is `%!s(MISSING)`, any other verb letter `c` with operand `a` is
`%!c(string=a)`, a trailing `%` is `%!(NOVERB)` and left-over operands are reported as
`%!(EXTRA string=a)`. Flags, widths and precisions are not modelled. -/
def sprintfAux : List Char → List String → List Char
  | [], [] => []
  | [], a :: as => "%!(EXTRA ".data ++ sprintfExtra (a :: as) ++ [')']
  | c :: rest, args =>
    if c = '%' then
      match rest with
      | [] => "%!(NOVERB)".data
      | v :: rest2 =>
        if v = '%' then '%' :: sprintfAux rest2 args
        else
          match args with
          | [] => ['%', '!', v] ++ "(MISSING)".data ++ sprintfAux rest2 []
          | a :: as =>
            if v = 's' ∨ v = 'v' then a.data ++ sprintfAux rest2 as
            else ['%', '!', v] ++ "(string=".data ++ a.data ++ [')'] ++ sprintfAux rest2 as
    else c :: sprintfAux rest args

/-- The message `fmt.Sprintf(messageFormat, messageA...)`. -/
def Sprintf (messageFormat : String) (messageA : List String) : String :=
  String.mk (sprintfAux messageFormat.data messageA)

/-! ## Condition manager -/

/-- Modelled from the spec: `GetCondition`, the condition currently associated with the
given type, or none (the accessor of `apis.ConditionSet.Manage`). -/
def GetCondition (conds : List Condition) (t : String) : Option Condition :=
  conds.find? (fun c => decide (c.Type_ = t))

/-- Modelled from the spec: the upsert of section 4.2 (the manager's `SetCondition`): an
existing condition of the type is overwritten in place, its `LastTransitionTime` updated
only if the status changed; an absent one is inserted. -/
def SetCondition (conds : List Condition) (now : Nat) (t : String) (s : ConditionStatus)
    (reason message : String) : List Condition :=
  match conds with
  | [] => [{ Type_ := t, Status := s, Reason := reason, Message := message,
             LastTransitionTime := now }]
  | c :: rest =>
    if c.Type_ = t then
      { Type_ := t, Status := s, Reason := reason, Message := message,
        LastTransitionTime := if c.Status = s then c.LastTransitionTime else now } :: rest
    else c :: SetCondition rest now t s reason message

/-- Modelled from the spec: the status of a declared type on read; a missing type is
treated as Unknown (section 4.2, error handling). -/
def statusOf (conds : List Condition) (t : String) : ConditionStatus :=
  match GetCondition conds t with
  | some c => c.Status
  | none => ConditionUnknown

/-- Modelled from the spec: the reason of a type on read, empty when the type is missing. -/
def reasonOf (conds : List Condition) (t : String) : String :=
  match GetCondition conds t with
  | some c => c.Reason
  | none => ""

/-- Modelled from the spec: the message of a type on read, empty when the type is missing. -/
def messageOf (conds : List Condition) (t : String) : String :=
  match GetCondition conds t with
  | some c => c.Message
  | none => ""

/-- Modelled from the spec: the aggregation algorithm of `GetTopLevelCondition` (section 4.2).
Iterate the dependent types in declaration order; if every one is True the top-level is True;
otherwise the first False type is selected, and if none is False the first Unknown one; the
selected condition's reason and message are copied. -/
def selectTopLevel (cs : ConditionSet) (conds : List Condition) :
    ConditionStatus × String × String :=
  if cs.dependents.all (fun t => decide (statusOf conds t = ConditionTrue)) then
    (ConditionTrue, "", "")
  else
    match cs.dependents.find? (fun t => decide (statusOf conds t = ConditionFalse)) with
    | some t => (ConditionFalse, reasonOf conds t, messageOf conds t)
    | none =>
      match cs.dependents.find? (fun t => decide (statusOf conds t = ConditionUnknown)) with
      | some t => (ConditionUnknown, reasonOf conds t, messageOf conds t)
      | none => (ConditionUnknown, "", "")

/-- Modelled from the spec: the top-level condition is recomputed on every mutation
(section 4.2) and upserted under the top-level type. -/
def recomputeTopLevel (cs : ConditionSet) (conds : List Condition) (now : Nat) :
    List Condition :=
  let r := selectTopLevel cs conds
  SetCondition conds now cs.happy r.1 r.2.1 r.2.2

/-- Modelled from the spec: `MarkTrue(status, type)` of section 4.2. -/
def MarkTrue (cs : ConditionSet) (conds : List Condition) (now : Nat) (t : String) :
    List Condition :=
  recomputeTopLevel cs (SetCondition conds now t ConditionTrue "" "") now

/-- Modelled from the spec: `MarkFalse(status, type, reason, message)` of section 4.2, called
by the source with a message format and its operands. -/
def MarkFalse (cs : ConditionSet) (conds : List Condition) (now : Nat) (t reason : String)
    (messageFormat : String) (messageA : List String) : List Condition :=
  recomputeTopLevel cs
    (SetCondition conds now t ConditionFalse reason (Sprintf messageFormat messageA)) now

/-- Modelled from the spec: `MarkUnknown(status, type, reason, message)` of section 4.2,
called by the source with a message format and its operands. -/
def MarkUnknown (cs : ConditionSet) (conds : List Condition) (now : Nat) (t reason : String)
    (messageFormat : String) (messageA : List String) : List Condition :=
  recomputeTopLevel cs
    (SetCondition conds now t ConditionUnknown reason (Sprintf messageFormat messageA)) now

/-- Modelled from the spec: one step of `InitializeConditions`, the insertion of
`{Status: Unknown, Reason: "", Message: ""}` for a type that is absent. -/
def initializeCondition (conds : List Condition) (now : Nat) (t : String) : List Condition :=
  match GetCondition conds t with
  | some _ => conds
  | none => conds ++ [{ Type_ := t, Status := ConditionUnknown, Reason := "", Message := "",
                        LastTransitionTime := now }]

/-- Modelled from the spec: `InitializeConditions(status)` of section 4.2: every declared
type (dependent and top-level) that is absent is inserted as Unknown; an existing condition
is never overwritten. -/
def InitializeConditions (cs : ConditionSet) (conds : List Condition) (now : Nat) :
    List Condition :=
  (cs.dependents ++ [cs.happy]).foldl (fun acc t => initializeCondition acc now t) conds

/-- Modelled from the spec: `IsHappy(status)`: the top-level condition is True. -/
def IsHappy (cs : ConditionSet) (conds : List Condition) : Bool :=
  match GetCondition conds cs.happy with
  | some c => decide (c.Status = ConditionTrue)
  | none => false

/-! ## `redisbroker_lifecycle.go` -/

/-- `GetTopLevelCondition` returns the top level condition. -/
def RedisBrokerStatus.GetTopLevelCondition (bs : RedisBrokerStatus) : Option Condition :=
  GetCondition bs.Conditions redisBrokerCondSet.happy

/-- `SetAddress` makes the broker addressable by setting the URL and marks the Addressable
condition: true for a URL, false with reason `nil URL` for the nil URL. -/
def RedisBrokerStatus.SetAddress (bs : RedisBrokerStatus) (now : Nat) (url : Option String) :
    RedisBrokerStatus :=
  let bs1 : RedisBrokerStatus := { bs with Address := { URL := url } }
  match url with
  | some _ =>
    { bs1 with Conditions :=
        MarkTrue redisBrokerCondSet bs1.Conditions now RedisBrokerConditionAddressable }
  | none =>
    { bs1 with Conditions :=
        (MarkFalse redisBrokerCondSet bs1.Conditions now RedisBrokerConditionAddressable
          "nil URL" "URL is nil" []) }

/-- `GetCondition` returns the condition currently associated with the given type. -/
def RedisBrokerStatus.GetCondition (bs : RedisBrokerStatus) (t : String) : Option Condition :=
  TriggerMesh.GetCondition bs.Conditions t

/-- `IsReady` is true if the resource is ready overall and the latest spec has been
observed. -/
def RedisBroker.IsReady (b : RedisBroker) : Bool :=
  let bs := b.Status
  decide (bs.ObservedGeneration = b.Generation) && IsHappy redisBrokerCondSet bs.Conditions

/-- `InitializeConditions` sets relevant unset conditions to Unknown state. -/
def RedisBrokerStatus.InitializeConditions (bs : RedisBrokerStatus) (now : Nat) :
    RedisBrokerStatus :=
  { bs with Conditions := TriggerMesh.InitializeConditions redisBrokerCondSet bs.Conditions now }

def RedisBrokerStatus.MarkRedisDeploymentFailed (bs : RedisBrokerStatus) (now : Nat)
    (reason messageFormat : String) (messageA : List String) : RedisBrokerStatus :=
  { bs with Conditions :=
      (MarkFalse redisBrokerCondSet bs.Conditions now RedisBrokerRedisDeployment
        reason messageFormat messageA) }

def RedisBrokerStatus.MarkRedisDeploymentUnknown (bs : RedisBrokerStatus) (now : Nat)
    (reason messageFormat : String) (messageA : List String) : RedisBrokerStatus :=
  { bs with Conditions :=
      (MarkUnknown redisBrokerCondSet bs.Conditions now RedisBrokerRedisDeployment
        reason messageFormat messageA) }

/-- One condition of a Deployment's status (`appsv1.DeploymentCondition`); the status is the
raw string the switch of `PropagateRedisDeploymentAvailability` reads. -/
structure DeploymentCondition where
  Type_ : String
  Status : String
  Reason : String
  Message : String
deriving DecidableEq, Repr

/-- `appsv1.DeploymentStatus`, its condition list. -/
structure DeploymentStatus where
  Conditions : List DeploymentCondition
deriving DecidableEq, Repr

/-- `appsv1.DeploymentAvailable`. -/
def DeploymentAvailable : String := "Available"

/-- `corev1.ConditionTrue`. -/
def corev1ConditionTrue : String := "True"

/-- `corev1.ConditionFalse`. -/
def corev1ConditionFalse : String := "False"

/-- `corev1.ConditionUnknown`. -/
def corev1ConditionUnknown : String := "Unknown"

/-- The body of the loop of `PropagateRedisDeploymentAvailability` for one condition. -/
def propagateStep (now : Nat) (bs : RedisBrokerStatus) (cond : DeploymentCondition) :
    RedisBrokerStatus :=
  if cond.Type_ = DeploymentAvailable then
    if cond.Status = corev1ConditionTrue then
      { bs with Conditions :=
          MarkTrue redisBrokerCondSet bs.Conditions now RedisBrokerRedisDeployment }
    else if cond.Status = corev1ConditionFalse then
      bs.MarkRedisDeploymentFailed now "RedisDeploymentFalse"
        "The status of Redis Deployment is False: %s : %s" [cond.Reason, cond.Message]
    else
      bs.MarkRedisDeploymentUnknown now "RedisDeploymentUnknown"
        "The status of Redis Deployment is Unknown: %s : %s" [cond.Reason, cond.Message]
  else bs

/-- `PropagateRedisDeploymentAvailability`: the loop over `ds.Conditions`. -/
def RedisBrokerStatus.PropagateRedisDeploymentAvailability (bs : RedisBrokerStatus) (now : Nat)
    (ds : DeploymentStatus) : RedisBrokerStatus :=
  ds.Conditions.foldl (propagateStep now) bs

def RedisBrokerStatus.MarkRedisServiceFailed (bs : RedisBrokerStatus) (now : Nat)
    (reason messageFormat : String) (messageA : List String) : RedisBrokerStatus :=
  { bs with Conditions :=
      (MarkFalse redisBrokerCondSet bs.Conditions now RedisBrokerRedisService
        reason messageFormat messageA) }

def RedisBrokerStatus.MarkRedisServiceUnknown (bs : RedisBrokerStatus) (now : Nat)
    (reason messageFormat : String) (messageA : List String) : RedisBrokerStatus :=
  { bs with Conditions :=
      (MarkUnknown redisBrokerCondSet bs.Conditions now RedisBrokerRedisService
        reason messageFormat messageA) }

def RedisBrokerStatus.MarkRedisServiceReady (bs : RedisBrokerStatus) (now : Nat) :
    RedisBrokerStatus :=
  { bs with Conditions := MarkTrue redisBrokerCondSet bs.Conditions now RedisBrokerRedisService }

/-- A status operation of the lifecycle file together with the time it runs at. -/
inductive StatusOp where
  | SetAddress (now : Nat) (url : Option String)
  | MarkRedisDeploymentFailed (now : Nat) (reason messageFormat : String)
      (messageA : List String)
  | MarkRedisDeploymentUnknown (now : Nat) (reason messageFormat : String)
      (messageA : List String)
  | PropagateRedisDeploymentAvailability (now : Nat) (ds : DeploymentStatus)
  | MarkRedisServiceFailed (now : Nat) (reason messageFormat : String)
      (messageA : List String)
  | MarkRedisServiceUnknown (now : Nat) (reason messageFormat : String)
      (messageA : List String)
  | MarkRedisServiceReady (now : Nat)
deriving DecidableEq, Repr

/-- Run one status operation. -/
def StatusOp.apply (bs : RedisBrokerStatus) : StatusOp → RedisBrokerStatus
  | .SetAddress now url => bs.SetAddress now url
  | .MarkRedisDeploymentFailed now r f a => bs.MarkRedisDeploymentFailed now r f a
  | .MarkRedisDeploymentUnknown now r f a => bs.MarkRedisDeploymentUnknown now r f a
  | .PropagateRedisDeploymentAvailability now ds =>
    bs.PropagateRedisDeploymentAvailability now ds
  | .MarkRedisServiceFailed now r f a => bs.MarkRedisServiceFailed now r f a
  | .MarkRedisServiceUnknown now r f a => bs.MarkRedisServiceUnknown now r f a
  | .MarkRedisServiceReady now => bs.MarkRedisServiceReady now

/-- Run a finite sequence of status operations, first to last. -/
def runOps (bs : RedisBrokerStatus) (ops : List StatusOp) : RedisBrokerStatus :=
  ops.foldl StatusOp.apply bs

/-- The zero value of `RedisBrokerStatus` with the given observed generation. -/
def emptyStatus (observedGeneration : Int) : RedisBrokerStatus :=
  { ObservedGeneration := observedGeneration, Conditions := [], Address := { URL := none } }

/-! ## `controller.go` -/

/-- `schema.GroupVersion`. -/
structure GroupVersion where
  Group : String
  Version : String
deriving DecidableEq, Repr

/-- `schema.GroupVersionKind`. -/
structure GroupVersionKind where
  Group : String
  Version : String
  Kind : String
deriving DecidableEq, Repr

/-- `GetGroupVersionKind` is `SchemeGroupVersion.WithKind("RedisBroker")`; the scheme's
group and version are declared outside the two source files and are an argument. -/
def GetGroupVersionKind (SchemeGroupVersion : GroupVersion) : GroupVersionKind :=
  { Group := SchemeGroupVersion.Group, Version := SchemeGroupVersion.Version,
    Kind := "RedisBroker" }

/-- The broker reference of a trigger (`Spec.Broker`). -/
structure KReference where
  Group : String
  Kind : String
  Name : String
deriving DecidableEq, Repr

structure TriggerSpec where
  Broker : KReference
deriving DecidableEq, Repr

structure Trigger where
  Namespace : String
  Name : String
  Spec : TriggerSpec
deriving DecidableEq, Repr

/-- The dynamic type of an informer object (`obj interface{}`). -/
inductive Object where
  | Trigger (t : TriggerMesh.Trigger)
  | RedisBroker (b : TriggerMesh.RedisBroker)
  | Other (kind : String)
deriving DecidableEq, Repr

/-- The error of a lister lookup: `NotFound` (`apierrs.IsNotFound`) or any other error. -/
inductive LookupError where
  | NotFound
  | Other (msg : String)
deriving DecidableEq, Repr

/-- `rbInformer.Lister().RedisBrokers(namespace).Get(name)`: the resource store's lookup,
an argument of the filter. -/
abbrev RedisBrokerLister := String → String → Except LookupError RedisBroker

/-- `types.NamespacedName`, the key put on the work queue. -/
structure NamespacedName where
  Namespace : String
  Name : String
deriving DecidableEq, Repr

/-- `filterTriggerForRedisBroker`: the verdict and the error lines it logs. -/
def filterTriggerForRedisBroker (SchemeGroupVersion : GroupVersion) (lister : RedisBrokerLister)
    (obj : Object) : Bool × List String :=
  let gvk := GetGroupVersionKind SchemeGroupVersion
  match obj with
  | .Trigger t =>
    if (!(t.Spec.Broker.Group == gvk.Group || t.Spec.Broker.Group == "")) ||
        t.Spec.Broker.Kind != gvk.Kind then
      (false, [])
    else
      match lister t.Namespace t.Spec.Broker.Name with
      | .ok _ => (true, [])
      | .error .NotFound => (false, [])
      | .error (.Other _) => (false, ["Unable to get Redis Broker"])
  | _ => (false, [])

/-- `enqueueFromTrigger`: `impl.EnqueueKey` on the broker the trigger names; the queue is
the list of keys enqueued so far. -/
def enqueueFromTrigger (obj : Object) (queue : List NamespacedName) : List NamespacedName :=
  match obj with
  | .Trigger t => queue ++ [{ Name := t.Spec.Broker.Name, Namespace := t.Namespace }]
  | _ => queue

/-- The handler registered on the trigger informer,
`cache.FilteringResourceEventHandler{FilterFunc: filterTriggerForRedisBroker,
Handler: controller.HandleAll(enqueueFromTrigger)}`, on the notification of one object: the
handler runs only on an object the filter accepts. -/
def triggerEventHandler (SchemeGroupVersion : GroupVersion) (lister : RedisBrokerLister)
    (obj : Object) (queue : List NamespacedName) : List NamespacedName :=
  if (filterTriggerForRedisBroker SchemeGroupVersion lister obj).1 then
    enqueueFromTrigger obj queue
  else queue

/-! ## Predicates used by the theorems -/

/-- The stored top-level condition agrees with the aggregation of the dependent conditions:
its status, reason and message (Unknown and empty when it is missing) are the ones
`selectTopLevel` computes. -/
def Aggregated (cs : ConditionSet) (conds : List Condition) : Prop :=
  (statusOf conds cs.happy, reasonOf conds cs.happy, messageOf conds cs.happy) =
    selectTopLevel cs conds

/-- The stored top-level condition is True exactly when every dependent type is True. -/
def TopLevelTrueIff (cs : ConditionSet) (conds : List Condition) : Prop :=
  statusOf conds cs.happy = ConditionTrue ↔
    ∀ t ∈ cs.dependents, statusOf conds t = ConditionTrue

/-- The number of conditions of a type held by a condition list. -/
def countType (conds : List Condition) (t : String) : Nat :=
  conds.countP (fun c => decide (c.Type_ = t))

/-! ## Sample inputs -/

/-- A persisted status with every declared condition True. -/
def sampleReadyStatus : RedisBrokerStatus :=
  { ObservedGeneration := 2,
    Conditions :=
      [⟨"Addressable", ConditionTrue, "", "", 1⟩,
       ⟨"BrokerDeploymentReady", ConditionTrue, "", "", 1⟩,
       ⟨"BrokerServiceReady", ConditionTrue, "", "", 1⟩,
       ⟨"Ready", ConditionTrue, "", "", 1⟩,
       ⟨"RedisDeploymentReady", ConditionTrue, "", "", 1⟩,
       ⟨"RedisServiceReady", ConditionTrue, "", "", 1⟩],
    Address := { URL := some "http://broker.default.svc" } }

/-- A broker whose latest generation has been observed, with `sampleReadyStatus`. -/
def sampleBroker : RedisBroker :=
  { Namespace := "default", Name := "demo", Generation := 2, Status := sampleReadyStatus }

/-- The scheme group and version of the sample dispatcher. -/
def sampleGroupVersion : GroupVersion :=
  { Group := "eventing.triggermesh.io", Version := "v1alpha1" }

/-- A store holding one RedisBroker, `b` in namespace `a`. -/
def sampleLister : RedisBrokerLister := fun ns name =>
  if ns = "a" ∧ name = "b" then
    Except.ok { Namespace := "a", Name := "b", Generation := 1, Status := emptyStatus 0 }
  else Except.error LookupError.NotFound

/-- A trigger named `t1` in namespace `a` that references the RedisBroker `name`, with the
group left unset. -/
def sampleTrigger (name : String) : Trigger :=
  { Namespace := "a", Name := "t1",
    Spec := { Broker := { Group := "", Kind := "RedisBroker", Name := name } } }

/-- A Deployment status as the cluster reports it while the pods are unavailable: a
`Progressing` condition and an `Available` condition whose status is `status`. -/
def sampleDeploymentStatus (status : String) : DeploymentStatus :=
  { Conditions :=
      [⟨"Progressing", "True", "ReplicaSetUpdated", "ReplicaSet is progressing."⟩,
       ⟨"Available", status, "MinimumReplicasUnavailable",
        "Deployment does not have minimum availability."⟩] }

/-! ## Lemmas on the condition manager -/

theorem getCondition_setCondition_same (conds : List Condition) (now : Nat) (t : String)
    (s : ConditionStatus) (r m : String) :
    ∃ ltt, GetCondition (SetCondition conds now t s r m) t =
      some { Type_ := t, Status := s, Reason := r, Message := m, LastTransitionTime := ltt } := by
  induction conds with
  | nil => exact ⟨now, by simp [SetCondition, GetCondition]⟩
  | cons c rest ih =>
    by_cases h : c.Type_ = t
    · exact ⟨if c.Status = s then c.LastTransitionTime else now,
        by simp [SetCondition, GetCondition, h]⟩
    · obtain ⟨ltt, hl⟩ := ih
      refine ⟨ltt, ?_⟩
      simpa [SetCondition, GetCondition, h] using hl

theorem getCondition_setCondition_other (conds : List Condition) (now : Nat) (t u : String)
    (s : ConditionStatus) (r m : String) (hne : u ≠ t) :
    GetCondition (SetCondition conds now t s r m) u = GetCondition conds u := by
  induction conds with
  | nil => simp [SetCondition, GetCondition, Ne.symm hne]
  | cons c rest ih =>
    by_cases h : c.Type_ = t
    · have hcu : ¬ c.Type_ = u := by rw [h]; exact Ne.symm hne
      simp [SetCondition, GetCondition, h, hcu, Ne.symm hne]
    · by_cases hu : c.Type_ = u
      · simp only [SetCondition, if_neg h]
        simp [GetCondition, hu]
      · simp only [SetCondition, if_neg h]
        simpa [GetCondition, hu] using ih

theorem statusOf_setCondition_same (conds : List Condition) (now : Nat) (t : String)
    (s : ConditionStatus) (r m : String) :
    statusOf (SetCondition conds now t s r m) t = s := by
  obtain ⟨ltt, h⟩ := getCondition_setCondition_same conds now t s r m
  simp [statusOf, h]

theorem reasonOf_setCondition_same (conds : List Condition) (now : Nat) (t : String)
    (s : ConditionStatus) (r m : String) :
    reasonOf (SetCondition conds now t s r m) t = r := by
  obtain ⟨ltt, h⟩ := getCondition_setCondition_same conds now t s r m
  simp [reasonOf, h]

theorem messageOf_setCondition_same (conds : List Condition) (now : Nat) (t : String)
    (s : ConditionStatus) (r m : String) :
    messageOf (SetCondition conds now t s r m) t = m := by
  obtain ⟨ltt, h⟩ := getCondition_setCondition_same conds now t s r m
  simp [messageOf, h]

theorem statusOf_setCondition_other (conds : List Condition) (now : Nat) (t u : String)
    (s : ConditionStatus) (r m : String) (hne : u ≠ t) :
    statusOf (SetCondition conds now t s r m) u = statusOf conds u := by
  simp [statusOf, getCondition_setCondition_other conds now t u s r m hne]

theorem reasonOf_setCondition_other (conds : List Condition) (now : Nat) (t u : String)
    (s : ConditionStatus) (r m : String) (hne : u ≠ t) :
    reasonOf (SetCondition conds now t s r m) u = reasonOf conds u := by
  simp [reasonOf, getCondition_setCondition_other conds now t u s r m hne]

theorem messageOf_setCondition_other (conds : List Condition) (now : Nat) (t u : String)
    (s : ConditionStatus) (r m : String) (hne : u ≠ t) :
    messageOf (SetCondition conds now t s r m) u = messageOf conds u := by
  simp [messageOf, getCondition_setCondition_other conds now t u s r m hne]

theorem all_congr_mem {α : Type} (l : List α) (p q : α → Bool) (h : ∀ a ∈ l, p a = q a) :
    l.all p = l.all q := by
  induction l with
  | nil => rfl
  | cons a rest ih =>
    simp only [List.all_cons]
    rw [h a (List.mem_cons_self a rest), ih (fun b hb => h b (List.mem_cons_of_mem a hb))]

theorem find_congr_mem {α : Type} (l : List α) (p q : α → Bool) (h : ∀ a ∈ l, p a = q a) :
    l.find? p = l.find? q := by
  induction l with
  | nil => rfl
  | cons a rest ih =>
    simp only [List.find?_cons]
    rw [h a (List.mem_cons_self a rest), ih (fun b hb => h b (List.mem_cons_of_mem a hb))]

/-- The aggregation reads a status only through the status, reason and message of the
dependent types. -/
theorem selectTopLevel_congr (cs : ConditionSet) (c1 c2 : List Condition)
    (h : ∀ t ∈ cs.dependents, statusOf c1 t = statusOf c2 t ∧ reasonOf c1 t = reasonOf c2 t ∧
      messageOf c1 t = messageOf c2 t) :
    selectTopLevel cs c1 = selectTopLevel cs c2 := by
  unfold selectTopLevel
  rw [all_congr_mem cs.dependents (fun t => decide (statusOf c1 t = ConditionTrue))
        (fun t => decide (statusOf c2 t = ConditionTrue)) (fun t ht => by simp [(h t ht).1]),
      find_congr_mem cs.dependents (fun t => decide (statusOf c1 t = ConditionFalse))
        (fun t => decide (statusOf c2 t = ConditionFalse)) (fun t ht => by simp [(h t ht).1]),
      find_congr_mem cs.dependents (fun t => decide (statusOf c1 t = ConditionUnknown))
        (fun t => decide (statusOf c2 t = ConditionUnknown)) (fun t ht => by simp [(h t ht).1])]
  split
  · rfl
  · cases hf : cs.dependents.find? (fun t => decide (statusOf c2 t = ConditionFalse)) with
    | some t =>
      have ht := List.mem_of_find?_eq_some hf
      simp [(h t ht).2.1, (h t ht).2.2]
    | none =>
      cases hu : cs.dependents.find? (fun t => decide (statusOf c2 t = ConditionUnknown)) with
      | some t =>
        have ht := List.mem_of_find?_eq_some hu
        simp [(h t ht).2.1, (h t ht).2.2]
      | none => rfl

/-- The top-level status computed by the aggregation is True exactly when every dependent
type is True. -/
theorem selectTopLevel_true_iff (cs : ConditionSet) (conds : List Condition) :
    (selectTopLevel cs conds).1 = ConditionTrue ↔
      ∀ t ∈ cs.dependents, statusOf conds t = ConditionTrue := by
  unfold selectTopLevel
  split
  · rename_i hall
    simpa using hall
  · rename_i hall
    have hall2 : ¬ ∀ t ∈ cs.dependents, statusOf conds t = ConditionTrue := by
      simpa using hall
    constructor
    · intro h
      exfalso
      revert h
      split
      · simp
      · split <;> simp
    · intro h
      exact absurd h hall2

/-- The first False dependent type, in declaration order, is the one the aggregation
selects. -/
theorem selectTopLevel_first_false (cs : ConditionSet) (conds : List Condition)
    (pre post : List String) (t : String) (hdeps : cs.dependents = pre ++ t :: post)
    (hpre : ∀ u ∈ pre, statusOf conds u ≠ ConditionFalse)
    (ht : statusOf conds t = ConditionFalse) :
    selectTopLevel cs conds = (ConditionFalse, reasonOf conds t, messageOf conds t) := by
  have hfind : cs.dependents.find? (fun u => decide (statusOf conds u = ConditionFalse))
      = some t := by
    rw [hdeps]
    clear hdeps
    induction pre with
    | nil => simp [ht]
    | cons a rest ih =>
      have ha : statusOf conds a ≠ ConditionFalse := hpre a (List.mem_cons_self a rest)
      simp only [List.cons_append, List.find?_cons]
      simp only [ha, decide_False]
      exact ih (fun u hu => hpre u (List.mem_cons_of_mem a hu))
  have hall : cs.dependents.all (fun u => decide (statusOf conds u = ConditionTrue)) = false := by
    rw [hdeps]
    simp [ht]
  unfold selectTopLevel
  rw [hall, hfind]
  simp

theorem happy_not_mem_dependents :
    redisBrokerCondSet.happy ∉ redisBrokerCondSet.dependents := by
  decide

/-- After a recomputation the stored top-level condition agrees with the aggregation. -/
theorem aggregated_recomputeTopLevel (cs : ConditionSet) (conds : List Condition) (now : Nat)
    (hh : cs.happy ∉ cs.dependents) : Aggregated cs (recomputeTopLevel cs conds now) := by
  unfold Aggregated recomputeTopLevel
  simp only [statusOf_setCondition_same, reasonOf_setCondition_same,
    messageOf_setCondition_same]
  symm
  apply selectTopLevel_congr
  intro t ht
  have hne : t ≠ cs.happy := fun h => hh (h ▸ ht)
  exact ⟨statusOf_setCondition_other _ _ _ _ _ _ _ hne,
    reasonOf_setCondition_other _ _ _ _ _ _ _ hne,
    messageOf_setCondition_other _ _ _ _ _ _ _ hne⟩

theorem topLevelTrueIff_of_aggregated (cs : ConditionSet) (conds : List Condition)
    (h : Aggregated cs conds) : TopLevelTrueIff cs conds := by
  unfold TopLevelTrueIff
  unfold Aggregated at h
  have h1 : statusOf conds cs.happy = (selectTopLevel cs conds).1 := congrArg Prod.fst h
  rw [h1]
  exact selectTopLevel_true_iff cs conds

theorem getCondition_initializeCondition (conds : List Condition) (now : Nat) (t u : String) :
    GetCondition (initializeCondition conds now t) u =
      match GetCondition conds u with
      | some c => some c
      | none =>
        if t = u then
          some { Type_ := t, Status := ConditionUnknown, Reason := "", Message := "",
                 LastTransitionTime := now }
        else none := by
  unfold initializeCondition
  cases ht : GetCondition conds t with
  | some c =>
    cases hu : GetCondition conds u with
    | some d => simp
    | none =>
      have : ¬ t = u := by
        intro h
        rw [h, hu] at ht
        cases ht
      simp [this, hu]
  | none =>
    unfold GetCondition at *
    rw [List.find?_append]
    cases hu : List.find? (fun c => decide (c.Type_ = u)) conds with
    | some d => simp
    | none => by_cases h : t = u <;> simp [h]

theorem statusOf_initializeCondition (conds : List Condition) (now : Nat) (t u : String) :
    statusOf (initializeCondition conds now t) u = statusOf conds u := by
  unfold statusOf
  rw [getCondition_initializeCondition]
  cases GetCondition conds u with
  | some d => rfl
  | none => by_cases h : t = u <;> simp [h]

theorem reasonOf_initializeCondition (conds : List Condition) (now : Nat) (t u : String) :
    reasonOf (initializeCondition conds now t) u = reasonOf conds u := by
  unfold reasonOf
  rw [getCondition_initializeCondition]
  cases GetCondition conds u with
  | some d => rfl
  | none => by_cases h : t = u <;> simp [h]

theorem messageOf_initializeCondition (conds : List Condition) (now : Nat) (t u : String) :
    messageOf (initializeCondition conds now t) u = messageOf conds u := by
  unfold messageOf
  rw [getCondition_initializeCondition]
  cases GetCondition conds u with
  | some d => rfl
  | none => by_cases h : t = u <;> simp [h]

/-- `InitializeConditions` changes no status, reason or message as read by type. -/
theorem view_InitializeConditions (cs : ConditionSet) (conds : List Condition) (now : Nat)
    (u : String) :
    statusOf (InitializeConditions cs conds now) u = statusOf conds u ∧
    reasonOf (InitializeConditions cs conds now) u = reasonOf conds u ∧
    messageOf (InitializeConditions cs conds now) u = messageOf conds u := by
  unfold InitializeConditions
  generalize cs.dependents ++ [cs.happy] = ts
  induction ts generalizing conds with
  | nil => exact ⟨rfl, rfl, rfl⟩
  | cons t rest ih =>
    simp only [List.foldl_cons]
    obtain ⟨h1, h2, h3⟩ := ih (initializeCondition conds now t)
    rw [h1, h2, h3]
    exact ⟨statusOf_initializeCondition conds now t u,
      reasonOf_initializeCondition conds now t u, messageOf_initializeCondition conds now t u⟩

theorem aggregated_InitializeConditions (cs : ConditionSet) (conds : List Condition) (now : Nat)
    (h : Aggregated cs conds) : Aggregated cs (InitializeConditions cs conds now) := by
  unfold Aggregated at *
  rw [(view_InitializeConditions cs conds now cs.happy).1,
    (view_InitializeConditions cs conds now cs.happy).2.1,
    (view_InitializeConditions cs conds now cs.happy).2.2, h]
  symm
  exact selectTopLevel_congr cs _ _ (fun t _ => view_InitializeConditions cs conds now t)

theorem topLevelTrueIff_InitializeConditions (cs : ConditionSet) (conds : List Condition)
    (now : Nat) (h : TopLevelTrueIff cs conds) :
    TopLevelTrueIff cs (InitializeConditions cs conds now) := by
  unfold TopLevelTrueIff at *
  rw [(view_InitializeConditions cs conds now cs.happy).1]
  constructor
  · intro hs t ht
    rw [(view_InitializeConditions cs conds now t).1]
    exact h.mp hs t ht
  · intro hall
    apply h.mpr
    intro t ht
    rw [← (view_InitializeConditions cs conds now t).1]
    exact hall t ht

/-- One step of the propagation loop leaves the conditions alone or recomputes the
top-level condition. -/
theorem propagateStep_conditions (now : Nat) (bs : RedisBrokerStatus)
    (cond : DeploymentCondition) :
    (propagateStep now bs cond).Conditions = bs.Conditions ∨
      Aggregated redisBrokerCondSet (propagateStep now bs cond).Conditions := by
  unfold propagateStep
  split
  · right
    split
    · exact aggregated_recomputeTopLevel _ _ _ happy_not_mem_dependents
    · split
      · exact aggregated_recomputeTopLevel _ _ _ happy_not_mem_dependents
      · exact aggregated_recomputeTopLevel _ _ _ happy_not_mem_dependents
  · left
    rfl

theorem propagate_conditions (now : Nat) (ds : DeploymentStatus) (bs : RedisBrokerStatus) :
    (bs.PropagateRedisDeploymentAvailability now ds).Conditions = bs.Conditions ∨
      Aggregated redisBrokerCondSet (bs.PropagateRedisDeploymentAvailability now ds).Conditions := by
  unfold RedisBrokerStatus.PropagateRedisDeploymentAvailability
  generalize ds.Conditions = l
  induction l generalizing bs with
  | nil => left; rfl
  | cons c rest ih =>
    simp only [List.foldl_cons]
    rcases ih (propagateStep now bs c) with h | h
    · rcases propagateStep_conditions now bs c with h2 | h2
      · left
        rw [h, h2]
      · right
        rw [h]
        exact h2
    · right
      exact h

/-- Every status operation leaves the conditions alone or recomputes the top-level
condition. -/
theorem apply_conditions (op : StatusOp) (bs : RedisBrokerStatus) :
    (op.apply bs).Conditions = bs.Conditions ∨
      Aggregated redisBrokerCondSet (op.apply bs).Conditions := by
  cases op with
  | SetAddress now url =>
    right
    cases url with
    | none => exact aggregated_recomputeTopLevel _ _ _ happy_not_mem_dependents
    | some u => exact aggregated_recomputeTopLevel _ _ _ happy_not_mem_dependents
  | MarkRedisDeploymentFailed now r f a =>
    exact Or.inr (aggregated_recomputeTopLevel _ _ _ happy_not_mem_dependents)
  | MarkRedisDeploymentUnknown now r f a =>
    exact Or.inr (aggregated_recomputeTopLevel _ _ _ happy_not_mem_dependents)
  | PropagateRedisDeploymentAvailability now ds => exact propagate_conditions now ds bs
  | MarkRedisServiceFailed now r f a =>
    exact Or.inr (aggregated_recomputeTopLevel _ _ _ happy_not_mem_dependents)
  | MarkRedisServiceUnknown now r f a =>
    exact Or.inr (aggregated_recomputeTopLevel _ _ _ happy_not_mem_dependents)
  | MarkRedisServiceReady now =>
    exact Or.inr (aggregated_recomputeTopLevel _ _ _ happy_not_mem_dependents)

/-- A property of condition lists that every aggregated list has is kept by any sequence
of status operations. -/
theorem runOps_preserves (P : List Condition → Prop)
    (hP : ∀ conds, Aggregated redisBrokerCondSet conds → P conds)
    (ops : List StatusOp) (bs : RedisBrokerStatus) (h : P bs.Conditions) :
    P (runOps bs ops).Conditions := by
  unfold runOps
  induction ops generalizing bs with
  | nil => exact h
  | cons op rest ih =>
    simp only [List.foldl_cons]
    apply ih
    rcases apply_conditions op bs with h2 | h2
    · rw [h2]
      exact h
    · exact hP _ h2

theorem propagate_observedGeneration (now : Nat) (ds : DeploymentStatus)
    (bs : RedisBrokerStatus) :
    (bs.PropagateRedisDeploymentAvailability now ds).ObservedGeneration =
      bs.ObservedGeneration := by
  unfold RedisBrokerStatus.PropagateRedisDeploymentAvailability
  generalize ds.Conditions = l
  induction l generalizing bs with
  | nil => rfl
  | cons c rest ih =>
    simp only [List.foldl_cons]
    rw [ih]
    unfold propagateStep
    split
    · split
      · rfl
      · split <;> rfl
    · rfl

theorem runOps_observedGeneration (ops : List StatusOp) (bs : RedisBrokerStatus) :
    (runOps bs ops).ObservedGeneration = bs.ObservedGeneration := by
  unfold runOps
  induction ops generalizing bs with
  | nil => rfl
  | cons op rest ih =>
    simp only [List.foldl_cons]
    rw [ih]
    cases op with
    | SetAddress now url => cases url <;> rfl
    | PropagateRedisDeploymentAvailability now ds => exact propagate_observedGeneration now ds bs
    | _ => rfl

theorem statusOf_eq_true_iff (conds : List Condition) (t : String) :
    statusOf conds t = ConditionTrue ↔
      ∃ c, GetCondition conds t = some c ∧ c.Status = ConditionTrue := by
  unfold statusOf
  cases GetCondition conds t with
  | some c => simp
  | none => simp

theorem statusOf_eq_false_iff (conds : List Condition) (t : String) :
    statusOf conds t = ConditionFalse ↔
      ∃ c, GetCondition conds t = some c ∧ c.Status = ConditionFalse := by
  unfold statusOf
  cases GetCondition conds t with
  | some c => simp
  | none => simp

theorem isHappy_iff (cs : ConditionSet) (conds : List Condition) :
    IsHappy cs conds = true ↔ statusOf conds cs.happy = ConditionTrue := by
  unfold IsHappy statusOf
  cases GetCondition conds cs.happy with
  | some c => simp
  | none => simp

/-- C1. Let the status of a RedisBroker be produced by `InitializeConditions` followed by any
finite sequence of the status operations (`SetAddress`, `MarkRedisDeploymentFailed`/`Unknown`,
`PropagateRedisDeploymentAvailability`, `MarkRedisServiceFailed`/`Unknown`/`Ready`), starting
from a status whose top-level condition is True exactly when all its dependents are (the
status without conditions is one). Then `IsReady()` is true if and only if
`Status.ObservedGeneration == Generation` and every dependent condition of the declared set
has status True. -/
theorem isReady_iff_generation_and_dependents (b : RedisBroker) (now : Nat)
    (ops : List StatusOp) (bs : RedisBrokerStatus)
    (h0 : TopLevelTrueIff redisBrokerCondSet b.Status.Conditions)
    (hbs : bs = runOps (b.Status.InitializeConditions now) ops) :
    RedisBroker.IsReady { b with Status := bs } = true ↔
      (bs.ObservedGeneration = b.Generation ∧
        ∀ t ∈ redisBrokerCondSet.dependents,
          ∃ c, bs.GetCondition t = some c ∧ c.Status = ConditionTrue) := by
  have hinv : TopLevelTrueIff redisBrokerCondSet bs.Conditions := by
    rw [hbs]
    exact runOps_preserves (TopLevelTrueIff redisBrokerCondSet)
      (topLevelTrueIff_of_aggregated redisBrokerCondSet) ops _
      (topLevelTrueIff_InitializeConditions redisBrokerCondSet _ now h0)
  unfold RedisBroker.IsReady
  simp only [Bool.and_eq_true, decide_eq_true_eq, isHappy_iff]
  unfold TopLevelTrueIff at hinv
  rw [hinv]
  simp only [statusOf_eq_true_iff, RedisBrokerStatus.GetCondition]

/-- C1 at concrete inputs: a persisted status with all five dependents True (where `IsReady()`
is true after the operations) and the hypothesis on it. -/
theorem isReady_iff_generation_and_dependents_witness :
    TopLevelTrueIff redisBrokerCondSet sampleBroker.Status.Conditions ∧
    RedisBroker.IsReady { sampleBroker with Status :=
      (runOps (sampleBroker.Status.InitializeConditions 5)
        [StatusOp.MarkRedisServiceReady 6, StatusOp.SetAddress 7 (some "http://x")]) } = true ∧
    (RedisBroker.IsReady { sampleBroker with Status :=
      (runOps (sampleBroker.Status.InitializeConditions 5)
        [StatusOp.MarkRedisServiceReady 6, StatusOp.SetAddress 7 (some "http://x")]) } = true ↔
      ((runOps (sampleBroker.Status.InitializeConditions 5)
        [StatusOp.MarkRedisServiceReady 6,
         StatusOp.SetAddress 7 (some "http://x")]).ObservedGeneration = sampleBroker.Generation ∧
        ∀ t ∈ redisBrokerCondSet.dependents,
          ∃ c, (runOps (sampleBroker.Status.InitializeConditions 5)
            [StatusOp.MarkRedisServiceReady 6,
             StatusOp.SetAddress 7 (some "http://x")]).GetCondition t = some c ∧
            c.Status = ConditionTrue)) :=
  ⟨by unfold TopLevelTrueIff; decide, by decide,
    isReady_iff_generation_and_dependents sampleBroker 5
      [StatusOp.MarkRedisServiceReady 6, StatusOp.SetAddress 7 (some "http://x")] _
      (by unfold TopLevelTrueIff; decide) rfl⟩

/-- C2. For every status produced by `InitializeConditions` (from a status whose top-level
condition agrees with its dependents, such as the status without conditions) followed by any
sequence of status operations, in particular of `MarkRedisDeploymentFailed`,
`MarkRedisDeploymentUnknown`, `MarkRedisServiceFailed` and `MarkRedisServiceUnknown` calls in
any order: if `t` is the earliest-declared dependent type whose condition is False (every
type declared before it is not False), then `GetTopLevelCondition()` has status False and
carries the Reason and Message of the condition of `t`. -/
theorem topLevel_carries_earliest_false (bs0 : RedisBrokerStatus) (now : Nat)
    (calls : List StatusOp) (bs : RedisBrokerStatus)
    (h0 : Aggregated redisBrokerCondSet bs0.Conditions)
    (hbs : bs = runOps (bs0.InitializeConditions now) calls)
    (pre post : List String) (t : String) (d : Condition)
    (hdeps : redisBrokerCondSet.dependents = pre ++ t :: post)
    (hpre : ∀ u ∈ pre, ∀ e, bs.GetCondition u = some e → e.Status ≠ ConditionFalse)
    (ht : bs.GetCondition t = some d) (hd : d.Status = ConditionFalse) :
    ∃ c, bs.GetTopLevelCondition = some c ∧ c.Status = ConditionFalse ∧
      c.Reason = d.Reason ∧ c.Message = d.Message := by
  have hinv : Aggregated redisBrokerCondSet bs.Conditions := by
    rw [hbs]
    exact runOps_preserves (Aggregated redisBrokerCondSet) (fun _ h => h) calls _
      (aggregated_InitializeConditions redisBrokerCondSet _ now h0)
  have hpre2 : ∀ u ∈ pre, statusOf bs.Conditions u ≠ ConditionFalse := by
    intro u hu hf
    obtain ⟨e, he, hes⟩ := (statusOf_eq_false_iff bs.Conditions u).mp hf
    exact hpre u hu e he hes
  have ht2 : statusOf bs.Conditions t = ConditionFalse :=
    (statusOf_eq_false_iff bs.Conditions t).mpr ⟨d, ht, hd⟩
  have hsel := selectTopLevel_first_false redisBrokerCondSet bs.Conditions pre post t hdeps
    hpre2 ht2
  unfold Aggregated at hinv
  rw [hsel] at hinv
  have hr : reasonOf bs.Conditions t = d.Reason := by
    unfold reasonOf
    rw [show GetCondition bs.Conditions t = some d from ht]
  have hm : messageOf bs.Conditions t = d.Message := by
    unfold messageOf
    rw [show GetCondition bs.Conditions t = some d from ht]
  rw [hr, hm] at hinv
  unfold RedisBrokerStatus.GetTopLevelCondition
  unfold statusOf reasonOf messageOf at hinv
  cases hc : GetCondition bs.Conditions redisBrokerCondSet.happy with
  | none =>
    rw [hc] at hinv
    simp at hinv
  | some c =>
    rw [hc] at hinv
    simp only [Prod.mk.injEq] at hinv
    exact ⟨c, rfl, hinv.1, hinv.2.1, hinv.2.2⟩

/-- C2 at concrete inputs, both orders of the two failing calls: after
`MarkRedisDeploymentFailed(r1, m1)` then `MarkRedisServiceFailed(r2, m2)`, and after the same
calls in the reverse order, the top-level condition is False with reason `r1` and message
`m1`. -/
theorem topLevel_carries_earliest_false_witness :
    (∃ c, (runOps ((emptyStatus 1).InitializeConditions 0)
        [StatusOp.MarkRedisDeploymentFailed 1 "r1" "m1" [],
         StatusOp.MarkRedisServiceFailed 2 "r2" "m2" []]).GetTopLevelCondition = some c ∧
      c.Status = ConditionFalse ∧ c.Reason = "r1" ∧ c.Message = "m1") ∧
    (∃ c, (runOps ((emptyStatus 1).InitializeConditions 0)
        [StatusOp.MarkRedisServiceFailed 1 "r2" "m2" [],
         StatusOp.MarkRedisDeploymentFailed 2 "r1" "m1" []]).GetTopLevelCondition = some c ∧
      c.Status = ConditionFalse ∧ c.Reason = "r1" ∧ c.Message = "m1") :=
  ⟨topLevel_carries_earliest_false (emptyStatus 1) 0
      [StatusOp.MarkRedisDeploymentFailed 1 "r1" "m1" [],
       StatusOp.MarkRedisServiceFailed 2 "r2" "m2" []] _ (by unfold Aggregated; decide) rfl
      [] ["RedisServiceReady", "BrokerDeploymentReady", "BrokerServiceReady", "Addressable"]
      "RedisDeploymentReady" ⟨"RedisDeploymentReady", ConditionFalse, "r1", "m1", 1⟩
      (by decide) (by decide) (by decide) rfl,
   topLevel_carries_earliest_false (emptyStatus 1) 0
      [StatusOp.MarkRedisServiceFailed 1 "r2" "m2" [],
       StatusOp.MarkRedisDeploymentFailed 2 "r1" "m1" []] _ (by unfold Aggregated; decide) rfl
      [] ["RedisServiceReady", "BrokerDeploymentReady", "BrokerServiceReady", "Addressable"]
      "RedisDeploymentReady" ⟨"RedisDeploymentReady", ConditionFalse, "r1", "m1", 2⟩
      (by decide) (by decide) (by decide) rfl⟩

/-- C3. `filterTriggerForRedisBroker` accepts an object if and only if the object is a
Trigger, its `Spec.Broker.Group` equals the RedisBroker group or is the empty string, its
`Spec.Broker.Kind` equals `RedisBroker`, and the lister lookup of a RedisBroker named
`Spec.Broker.Name` in the trigger's own namespace returns no error. A NotFound error, any
other lookup error and a non-Trigger object are therefore rejected. -/
theorem filterTriggerForRedisBroker_accepts_iff (SchemeGroupVersion : GroupVersion)
    (lister : RedisBrokerLister) (obj : Object) :
    (filterTriggerForRedisBroker SchemeGroupVersion lister obj).1 = true ↔
      ∃ t, obj = Object.Trigger t ∧
        (t.Spec.Broker.Group = (GetGroupVersionKind SchemeGroupVersion).Group ∨
          t.Spec.Broker.Group = "") ∧
        t.Spec.Broker.Kind = "RedisBroker" ∧
        ∃ b, lister t.Namespace t.Spec.Broker.Name = Except.ok b := by
  cases obj with
  | Trigger t =>
    unfold filterTriggerForRedisBroker
    simp only [GetGroupVersionKind]
    by_cases hg : t.Spec.Broker.Group = SchemeGroupVersion.Group ∨ t.Spec.Broker.Group = ""
    · by_cases hk : t.Spec.Broker.Kind = "RedisBroker"
      · cases hl : lister t.Namespace t.Spec.Broker.Name with
        | ok b =>
          rcases hg with hg | hg <;> simp [hg, hk, hl]
        | error e =>
          cases e with
          | NotFound => rcases hg with hg | hg <;> simp [hg, hk, hl]
          | Other msg => rcases hg with hg | hg <;> simp [hg, hk, hl]
      · simp [hk]
    · have hg1 : ¬ t.Spec.Broker.Group = SchemeGroupVersion.Group := fun h => hg (Or.inl h)
      have hg2 : ¬ t.Spec.Broker.Group = "" := fun h => hg (Or.inr h)
      simp [hg1, hg2]
  | RedisBroker b => simp [filterTriggerForRedisBroker]
  | Other kind => simp [filterTriggerForRedisBroker]

/-- C4. For every Trigger `t` whose broker reference matches the RedisBroker group and
kind: if the lookup of a RedisBroker named `t.Spec.Broker.Name` in `t.Namespace` succeeds,
the filtered handler enqueues exactly one key, `{Namespace: t.Namespace, Name:
t.Spec.Broker.Name}`; if the lookup fails (no such RedisBroker), nothing is enqueued. -/
theorem triggerEventHandler_enqueues_target (SchemeGroupVersion : GroupVersion)
    (lister : RedisBrokerLister) (t : Trigger) (queue : List NamespacedName)
    (hgroup : t.Spec.Broker.Group = (GetGroupVersionKind SchemeGroupVersion).Group ∨
      t.Spec.Broker.Group = "")
    (hkind : t.Spec.Broker.Kind = (GetGroupVersionKind SchemeGroupVersion).Kind) :
    (∀ b, lister t.Namespace t.Spec.Broker.Name = Except.ok b →
      triggerEventHandler SchemeGroupVersion lister (Object.Trigger t) queue =
        queue ++ [{ Namespace := t.Namespace, Name := t.Spec.Broker.Name }]) ∧
    (∀ e, lister t.Namespace t.Spec.Broker.Name = Except.error e →
      triggerEventHandler SchemeGroupVersion lister (Object.Trigger t) queue = queue) := by
  simp only [GetGroupVersionKind] at hgroup hkind
  constructor
  · intro b hl
    unfold triggerEventHandler filterTriggerForRedisBroker enqueueFromTrigger
    rcases hgroup with hg | hg <;> simp [GetGroupVersionKind, hg, hkind, hl]
  · intro e hl
    unfold triggerEventHandler filterTriggerForRedisBroker
    cases e with
    | NotFound => rcases hgroup with hg | hg <;> simp [GetGroupVersionKind, hg, hkind, hl]
    | Other msg => rcases hgroup with hg | hg <;> simp [GetGroupVersionKind, hg, hkind, hl]

/-- C4 at concrete inputs: a trigger `t1` in namespace `a` naming the existing broker `b`
enqueues exactly the key of `b`, and one naming the absent broker `c` enqueues nothing. -/
theorem triggerEventHandler_enqueues_target_witness :
    triggerEventHandler sampleGroupVersion sampleLister (Object.Trigger (sampleTrigger "b")) []
      = [{ Namespace := "a", Name := "b" }] ∧
    triggerEventHandler sampleGroupVersion sampleLister (Object.Trigger (sampleTrigger "c")) []
      = [] :=
  ⟨(triggerEventHandler_enqueues_target sampleGroupVersion sampleLister (sampleTrigger "b") []
      (Or.inr rfl) rfl).1
      { Namespace := "a", Name := "b", Generation := 1, Status := emptyStatus 0 } rfl,
   (triggerEventHandler_enqueues_target sampleGroupVersion sampleLister (sampleTrigger "c") []
      (Or.inr rfl) rfl).2 LookupError.NotFound rfl⟩

/-! ## Lemmas on message formatting -/

theorem sprintfAux_plain (pre rest : List Char) (args : List String) (h : '%' ∉ pre) :
    sprintfAux (pre ++ rest) args = pre ++ sprintfAux rest args := by
  induction pre with
  | nil => rfl
  | cons c l ih =>
    have hc : ¬ c = '%' := fun e => h (e ▸ List.mem_cons_self c l)
    have hl : '%' ∉ l := fun e => h (List.mem_cons_of_mem c e)
    simp only [List.cons_append]
    rw [sprintfAux.eq_def]
    simp only [if_neg hc, ih hl]

theorem sprintfAux_verb_s (rest : List Char) (a : String) (as : List String) :
    sprintfAux ('%' :: 's' :: rest) (a :: as) = a.data ++ sprintfAux rest as := by
  rw [sprintfAux.eq_def]
  simp

/-- A format of plain text around two `%s` verbs renders as the text with the two operands
in place of the verbs. -/
theorem Sprintf_two_operands (pre mid : String) (r m : String) (hpre : '%' ∉ pre.data)
    (hmid : '%' ∉ mid.data) :
    Sprintf (pre ++ "%s" ++ mid ++ "%s") [r, m] = pre ++ r ++ mid ++ m := by
  apply String.ext
  unfold Sprintf
  simp only [String.data_append]
  rw [List.append_assoc, List.append_assoc, sprintfAux_plain _ _ _ hpre]
  simp only [List.cons_append, List.nil_append]
  rw [sprintfAux_verb_s, sprintfAux_plain _ _ _ hmid, sprintfAux_verb_s]
  simp [sprintfAux]

/-- A format without verbs and without operands renders as itself. -/
theorem Sprintf_plain (text : String) (h : '%' ∉ text.data) : Sprintf text [] = text := by
  apply String.ext
  unfold Sprintf
  have := sprintfAux_plain text.data [] [] h
  simp only [List.append_nil] at this
  rw [this]
  simp [sprintfAux]

theorem Sprintf_deployment_false (r m : String) :
    Sprintf "The status of Redis Deployment is False: %s : %s" [r, m] =
      "The status of Redis Deployment is False: " ++ r ++ " : " ++ m := by
  have h := Sprintf_two_operands "The status of Redis Deployment is False: " " : " r m
    (by decide) (by decide)
  have e : ("The status of Redis Deployment is False: " ++ "%s" ++ " : " ++ "%s" : String) =
      "The status of Redis Deployment is False: %s : %s" := by decide
  rw [e] at h
  exact h

theorem Sprintf_deployment_unknown (r m : String) :
    Sprintf "The status of Redis Deployment is Unknown: %s : %s" [r, m] =
      "The status of Redis Deployment is Unknown: " ++ r ++ " : " ++ m := by
  have h := Sprintf_two_operands "The status of Redis Deployment is Unknown: " " : " r m
    (by decide) (by decide)
  have e : ("The status of Redis Deployment is Unknown: " ++ "%s" ++ " : " ++ "%s" : String) =
      "The status of Redis Deployment is Unknown: %s : %s" := by decide
  rw [e] at h
  exact h

theorem Sprintf_url_is_nil : Sprintf "URL is nil" [] = "URL is nil" := by
  decide

/-! ## Lemmas on the lifecycle operations -/

theorem getCondition_recomputeTopLevel_other (cs : ConditionSet) (conds : List Condition)
    (now : Nat) (t : String) (hne : t ≠ cs.happy) :
    GetCondition (recomputeTopLevel cs conds now) t = GetCondition conds t := by
  unfold recomputeTopLevel
  exact getCondition_setCondition_other conds now cs.happy t _ _ _ hne

/-- After `MarkTrue` of a type other than the top-level one, the condition of that type is
True with empty reason and message. -/
theorem getCondition_MarkTrue (cs : ConditionSet) (conds : List Condition) (now : Nat)
    (t : String) (hne : t ≠ cs.happy) :
    ∃ ltt, GetCondition (MarkTrue cs conds now t) t =
      some { Type_ := t, Status := ConditionTrue, Reason := "", Message := "",
             LastTransitionTime := ltt } := by
  unfold MarkTrue
  rw [getCondition_recomputeTopLevel_other cs _ now t hne]
  exact getCondition_setCondition_same conds now t ConditionTrue "" ""

theorem getCondition_MarkFalse (cs : ConditionSet) (conds : List Condition) (now : Nat)
    (t reason messageFormat : String) (messageA : List String) (hne : t ≠ cs.happy) :
    ∃ ltt, GetCondition (MarkFalse cs conds now t reason messageFormat messageA) t =
      some { Type_ := t, Status := ConditionFalse, Reason := reason,
             Message := Sprintf messageFormat messageA, LastTransitionTime := ltt } := by
  unfold MarkFalse
  rw [getCondition_recomputeTopLevel_other cs _ now t hne]
  exact getCondition_setCondition_same conds now t ConditionFalse reason _

theorem getCondition_MarkUnknown (cs : ConditionSet) (conds : List Condition) (now : Nat)
    (t reason messageFormat : String) (messageA : List String) (hne : t ≠ cs.happy) :
    ∃ ltt, GetCondition (MarkUnknown cs conds now t reason messageFormat messageA) t =
      some { Type_ := t, Status := ConditionUnknown, Reason := reason,
             Message := Sprintf messageFormat messageA, LastTransitionTime := ltt } := by
  unfold MarkUnknown
  rw [getCondition_recomputeTopLevel_other cs _ now t hne]
  exact getCondition_setCondition_same conds now t ConditionUnknown reason _

/-- The propagation loop only acts on the conditions of type `Available`. -/
theorem propagate_filter (now : Nat) (l : List DeploymentCondition) (bs : RedisBrokerStatus) :
    l.foldl (propagateStep now) bs =
      (l.filter (fun c => decide (c.Type_ = DeploymentAvailable))).foldl (propagateStep now) bs := by
  induction l generalizing bs with
  | nil => rfl
  | cons c rest ih =>
    by_cases h : c.Type_ = DeploymentAvailable
    · simp only [List.foldl_cons, List.filter_cons, h, decide_True, if_true]
      exact ih _
    · have hstep : propagateStep now bs c = bs := by
        unfold propagateStep
        rw [if_neg h]
      simp only [List.foldl_cons, List.filter_cons, h, decide_False, hstep]
      exact ih bs

/-! ## Claims on `PropagateRedisDeploymentAvailability` and `SetAddress` -/

/-- C5, as the code has it. For every status and every DeploymentStatus containing exactly
one condition of type Available, with status `s`, reason `r` and message `m`, after
`PropagateRedisDeploymentAvailability` the RedisDeploymentReady condition is True when `s` is
True; is False with Reason `RedisDeploymentFalse` and Message
`The status of Redis Deployment is False: r : m` when `s` is False; and is Unknown with
Reason `RedisDeploymentUnknown` and Message `The status of Redis Deployment is Unknown: r : m`
when `s` is Unknown or any other value. -/
theorem propagate_available_sets_condition (bs : RedisBrokerStatus) (now : Nat)
    (ds : DeploymentStatus) (a : DeploymentCondition)
    (h : ds.Conditions.filter (fun c => decide (c.Type_ = DeploymentAvailable)) = [a]) :
    ∃ c, (bs.PropagateRedisDeploymentAvailability now ds).GetCondition
        RedisBrokerRedisDeployment = some c ∧
      (a.Status = corev1ConditionTrue → c.Status = ConditionTrue) ∧
      (a.Status = corev1ConditionFalse →
        c.Status = ConditionFalse ∧ c.Reason = "RedisDeploymentFalse" ∧
        c.Message = "The status of Redis Deployment is False: " ++ a.Reason ++ " : " ++
          a.Message) ∧
      (a.Status ≠ corev1ConditionTrue → a.Status ≠ corev1ConditionFalse →
        c.Status = ConditionUnknown ∧ c.Reason = "RedisDeploymentUnknown" ∧
        c.Message = "The status of Redis Deployment is Unknown: " ++ a.Reason ++ " : " ++
          a.Message) := by
  have hav : a.Type_ = DeploymentAvailable := by
    have hmem : a ∈ ds.Conditions.filter (fun c => decide (c.Type_ = DeploymentAvailable)) := by
      rw [h]
      exact List.mem_singleton.mpr rfl
    simpa using (List.mem_filter.mp hmem).2
  have hne : RedisBrokerRedisDeployment ≠ redisBrokerCondSet.happy := by decide
  unfold RedisBrokerStatus.PropagateRedisDeploymentAvailability
  rw [propagate_filter, h]
  simp only [List.foldl_cons, List.foldl_nil, RedisBrokerStatus.GetCondition]
  unfold propagateStep
  rw [if_pos hav]
  by_cases hT : a.Status = corev1ConditionTrue
  · rw [if_pos hT]
    obtain ⟨ltt, hl⟩ := getCondition_MarkTrue redisBrokerCondSet bs.Conditions now
      RedisBrokerRedisDeployment hne
    refine ⟨_, hl, fun _ => rfl, ?_, fun h1 _ => absurd hT h1⟩
    intro hF
    rw [hT] at hF
    exact absurd hF (by decide)
  · rw [if_neg hT]
    by_cases hF : a.Status = corev1ConditionFalse
    · rw [if_pos hF]
      obtain ⟨ltt, hl⟩ := getCondition_MarkFalse redisBrokerCondSet bs.Conditions now
        RedisBrokerRedisDeployment "RedisDeploymentFalse"
        "The status of Redis Deployment is False: %s : %s" [a.Reason, a.Message] hne
      refine ⟨_, hl, fun h1 => absurd h1 hT, fun _ => ⟨rfl, rfl, ?_⟩, fun _ h2 => absurd hF h2⟩
      exact Sprintf_deployment_false a.Reason a.Message
    · rw [if_neg hF]
      obtain ⟨ltt, hl⟩ := getCondition_MarkUnknown redisBrokerCondSet bs.Conditions now
        RedisBrokerRedisDeployment "RedisDeploymentUnknown"
        "The status of Redis Deployment is Unknown: %s : %s" [a.Reason, a.Message] hne
      refine ⟨_, hl, fun h1 => absurd h1 hT, fun h2 => absurd h2 hF, fun _ _ => ⟨rfl, rfl, ?_⟩⟩
      exact Sprintf_deployment_unknown a.Reason a.Message

/-- C5 at a concrete input: the Available condition of `sampleDeploymentStatus "False"`. -/
theorem propagate_available_sets_condition_witness :
    ∃ c, (((emptyStatus 1).InitializeConditions 0).PropagateRedisDeploymentAvailability 1
        (sampleDeploymentStatus "False")).GetCondition RedisBrokerRedisDeployment = some c ∧
      ("False" = corev1ConditionTrue → c.Status = ConditionTrue) ∧
      ("False" = corev1ConditionFalse →
        c.Status = ConditionFalse ∧ c.Reason = "RedisDeploymentFalse" ∧
        c.Message = "The status of Redis Deployment is False: " ++
          "MinimumReplicasUnavailable" ++ " : " ++
          "Deployment does not have minimum availability.") ∧
      ("False" ≠ corev1ConditionTrue → "False" ≠ corev1ConditionFalse →
        c.Status = ConditionUnknown ∧ c.Reason = "RedisDeploymentUnknown" ∧
        c.Message = "The status of Redis Deployment is Unknown: " ++
          "MinimumReplicasUnavailable" ++ " : " ++
          "Deployment does not have minimum availability.") :=
  propagate_available_sets_condition ((emptyStatus 1).InitializeConditions 0) 1
    (sampleDeploymentStatus "False")
    ⟨"Available", "False", "MinimumReplicasUnavailable",
      "Deployment does not have minimum availability."⟩ (by decide)

/-- C5 as stated fails: with an Available condition of status False, reason
`MinimumReplicasUnavailable` and message `Deployment does not have minimum availability.`,
the RedisDeploymentReady condition does not carry that reason and message. -/
theorem propagate_available_reason_not_copied :
    ¬ ∃ c, (((emptyStatus 1).InitializeConditions 0).PropagateRedisDeploymentAvailability 1
        (sampleDeploymentStatus "False")).GetCondition RedisBrokerRedisDeployment = some c ∧
      c.Status = ConditionFalse ∧ c.Reason = "MinimumReplicasUnavailable" ∧
      c.Message = "Deployment does not have minimum availability." := by
  rintro ⟨c, hc, -, hr, -⟩
  have e : (((emptyStatus 1).InitializeConditions 0).PropagateRedisDeploymentAvailability 1
      (sampleDeploymentStatus "False")).GetCondition RedisBrokerRedisDeployment =
      some ⟨"RedisDeploymentReady", ConditionFalse, "RedisDeploymentFalse",
        "The status of Redis Deployment is False: MinimumReplicasUnavailable : Deployment does not have minimum availability.",
        1⟩ := by decide
  rw [e] at hc
  cases hc
  exact absurd hr (by decide)

/-- C6, as the code has it. For every status and every DeploymentStatus whose condition list
contains no condition of type Available, `PropagateRedisDeploymentAvailability` leaves the
status as it is; the RedisDeploymentReady condition keeps the status it had. -/
theorem propagate_without_available_unchanged (bs : RedisBrokerStatus) (now : Nat)
    (ds : DeploymentStatus) (h : ∀ c ∈ ds.Conditions, c.Type_ ≠ DeploymentAvailable) :
    bs.PropagateRedisDeploymentAvailability now ds = bs ∧
      (bs.PropagateRedisDeploymentAvailability now ds).GetCondition RedisBrokerRedisDeployment =
        bs.GetCondition RedisBrokerRedisDeployment := by
  have e : bs.PropagateRedisDeploymentAvailability now ds = bs := by
    unfold RedisBrokerStatus.PropagateRedisDeploymentAvailability
    rw [propagate_filter]
    have hf : ds.Conditions.filter (fun c => decide (c.Type_ = DeploymentAvailable)) = [] := by
      rw [List.filter_eq_nil_iff]
      intro c hc
      simpa using h c hc
    rw [hf]
    rfl
  exact ⟨e, by rw [e]⟩

/-- C6 at concrete inputs: a status whose RedisDeploymentReady condition is True and a
Deployment status that holds only a Progressing condition. -/
theorem propagate_without_available_unchanged_witness :
    sampleReadyStatus.PropagateRedisDeploymentAvailability 9
        ⟨[⟨"Progressing", "True", "NewReplicaSetCreated", "Created new replica set"⟩]⟩ =
      sampleReadyStatus ∧
    (sampleReadyStatus.PropagateRedisDeploymentAvailability 9
        ⟨[⟨"Progressing", "True", "NewReplicaSetCreated", "Created new replica set"⟩]⟩).GetCondition
        RedisBrokerRedisDeployment = sampleReadyStatus.GetCondition RedisBrokerRedisDeployment :=
  propagate_without_available_unchanged sampleReadyStatus 9
    ⟨[⟨"Progressing", "True", "NewReplicaSetCreated", "Created new replica set"⟩]⟩ (by decide)

/-- C6 as stated fails: on a status whose RedisDeploymentReady condition is True, the empty
Deployment condition list leaves that condition True, not Unknown. -/
theorem propagate_empty_keeps_true :
    (sampleReadyStatus.PropagateRedisDeploymentAvailability 9 ⟨[]⟩).GetCondition
        RedisBrokerRedisDeployment =
      some ⟨"RedisDeploymentReady", ConditionTrue, "", "", 1⟩ ∧
    ¬ ∃ c, (sampleReadyStatus.PropagateRedisDeploymentAvailability 9 ⟨[]⟩).GetCondition
        RedisBrokerRedisDeployment = some c ∧ c.Status = ConditionUnknown := by
  have e : (sampleReadyStatus.PropagateRedisDeploymentAvailability 9 ⟨[]⟩).GetCondition
      RedisBrokerRedisDeployment = some ⟨"RedisDeploymentReady", ConditionTrue, "", "", 1⟩ := by
    decide
  refine ⟨e, ?_⟩
  rintro ⟨c, hc, hs⟩
  rw [e] at hc
  cases hc
  exact absurd hs (by decide)

/-- C7, as the code has it. For every status, after `SetAddress` with the nil URL the
status's `Address.URL` is nil and the Addressable condition has status False with Reason
exactly `nil URL` and Message exactly `URL is nil`. -/
theorem setAddress_nil_marks_false (bs : RedisBrokerStatus) (now : Nat) :
    (bs.SetAddress now none).Address.URL = none ∧
      ∃ c, (bs.SetAddress now none).GetCondition RedisBrokerConditionAddressable = some c ∧
        c.Status = ConditionFalse ∧ c.Reason = "nil URL" ∧ c.Message = "URL is nil" := by
  refine ⟨rfl, ?_⟩
  obtain ⟨ltt, hl⟩ := getCondition_MarkFalse redisBrokerCondSet bs.Conditions now
    RedisBrokerConditionAddressable "nil URL" "URL is nil" [] (by decide)
  exact ⟨_, hl, rfl, rfl, Sprintf_url_is_nil⟩

/-- C7 as stated fails: after `SetAddress(nil)` on the status without conditions the
Addressable condition does not have Reason `NoURL` and Message
`address is not yet resolvable`. -/
theorem setAddress_nil_reason_is_not_NoURL :
    ¬ ∃ c, ((emptyStatus 0).SetAddress 1 none).GetCondition RedisBrokerConditionAddressable =
        some c ∧
      c.Status = ConditionFalse ∧ c.Reason = "NoURL" ∧
      c.Message = "address is not yet resolvable" := by
  rintro ⟨c, hc, -, hr, -⟩
  have e : ((emptyStatus 0).SetAddress 1 none).GetCondition RedisBrokerConditionAddressable =
      some ⟨"Addressable", ConditionFalse, "nil URL", "URL is nil", 1⟩ := by decide
  rw [e] at hc
  cases hc
  exact absurd hr (by decide)

theorem filter_setCondition_same (conds : List Condition) (now : Nat) (t : String)
    (s : ConditionStatus) (r m : String) (h : countType conds t ≤ 1) :
    ∃ ltt, (SetCondition conds now t s r m).filter (fun c => decide (c.Type_ = t)) =
      [{ Type_ := t, Status := s, Reason := r, Message := m, LastTransitionTime := ltt }] := by
  induction conds with
  | nil => exact ⟨now, by simp [SetCondition]⟩
  | cons c rest ih =>
    by_cases hc : c.Type_ = t
    · refine ⟨if c.Status = s then c.LastTransitionTime else now, ?_⟩
      have hrest : rest.filter (fun c => decide (c.Type_ = t)) = [] := by
        unfold countType at h
        simp only [List.countP_cons, hc, decide_True, if_true] at h
        have h0 : rest.countP (fun c => decide (c.Type_ = t)) = 0 := by omega
        rw [List.countP_eq_length_filter] at h0
        exact List.length_eq_zero.mp h0
      simp only [SetCondition, if_pos hc, List.filter_cons, decide_True, if_true, hrest]
    · have hrest : countType rest t ≤ 1 := by
        unfold countType at *
        simpa [List.countP_cons, hc] using h
      obtain ⟨ltt, hl⟩ := ih hrest
      refine ⟨ltt, ?_⟩
      simp only [SetCondition, if_neg hc]
      rw [List.filter_cons_of_neg (by simpa using hc)]
      exact hl

theorem filter_setCondition_other (conds : List Condition) (now : Nat) (t u : String)
    (s : ConditionStatus) (r m : String) (hne : u ≠ t) :
    (SetCondition conds now t s r m).filter (fun c => decide (c.Type_ = u)) =
      conds.filter (fun c => decide (c.Type_ = u)) := by
  induction conds with
  | nil => simp [SetCondition, Ne.symm hne]
  | cons c rest ih =>
    by_cases hc : c.Type_ = t
    · have hcu : ¬ c.Type_ = u := by rw [hc]; exact Ne.symm hne
      simp [SetCondition, hc, hcu, Ne.symm hne]
    · simp only [SetCondition, if_neg hc, List.filter_cons, ih]

theorem countType_setCondition (conds : List Condition) (now : Nat) (t u : String)
    (s : ConditionStatus) (r m : String) (h : countType conds u ≤ 1) :
    countType (SetCondition conds now t s r m) u ≤ 1 := by
  by_cases hu : u = t
  · subst hu
    obtain ⟨ltt, hl⟩ := filter_setCondition_same conds now u s r m h
    unfold countType
    rw [List.countP_eq_length_filter, hl]
    simp
  · unfold countType at *
    rw [List.countP_eq_length_filter, filter_setCondition_other conds now t u s r m hu,
      ← List.countP_eq_length_filter]
    exact h

/-- After `MarkTrue` of a type other than the top-level one, on a list holding at most one
condition of that type, exactly one condition of that type is held and it is True. -/
theorem filter_MarkTrue (cs : ConditionSet) (conds : List Condition) (now : Nat) (t : String)
    (hne : t ≠ cs.happy) (h : countType conds t ≤ 1) :
    ∃ c, (MarkTrue cs conds now t).filter (fun c => decide (c.Type_ = t)) = [c] ∧
      c.Status = ConditionTrue := by
  unfold MarkTrue recomputeTopLevel
  rw [filter_setCondition_other _ now cs.happy t _ _ _ hne]
  obtain ⟨ltt, hl⟩ := filter_setCondition_same conds now t ConditionTrue "" "" h
  exact ⟨_, hl, rfl⟩

theorem countType_MarkFalse (cs : ConditionSet) (conds : List Condition) (now : Nat)
    (t reason messageFormat : String) (messageA : List String) (u : String)
    (h : countType conds u ≤ 1) :
    countType (MarkFalse cs conds now t reason messageFormat messageA) u ≤ 1 := by
  unfold MarkFalse recomputeTopLevel
  exact countType_setCondition _ now cs.happy u _ _ _
    (countType_setCondition conds now t u _ _ _ h)

/-- An aggregation over a list with a False dependent type is False. -/
theorem selectTopLevel_false_of_mem (cs : ConditionSet) (conds : List Condition) (t : String)
    (ht : t ∈ cs.dependents) (hs : statusOf conds t = ConditionFalse) :
    (selectTopLevel cs conds).1 = ConditionFalse := by
  have hall : cs.dependents.all (fun u => decide (statusOf conds u = ConditionTrue)) = false := by
    rw [List.all_eq_false]
    exact ⟨t, ht, by simp [hs]⟩
  unfold selectTopLevel
  rw [hall]
  cases hf : cs.dependents.find? (fun u => decide (statusOf conds u = ConditionFalse)) with
  | some u => simp
  | none =>
    rw [List.find?_eq_none] at hf
    exact absurd (by simpa using hs) (hf t ht)

/-! ## Claims on addressability and readiness -/

/-- C8. For every status holding at most one condition per type (at most one of type
Addressable is what is used) and every non-nil URL `u`, after `SetAddress(u)` the status's
`Address.URL` equals `u` and the status holds exactly one condition of type Addressable,
whose status is True; the same holds when the call is preceded by `SetAddress(nil)`: the
earlier False Addressable condition is overwritten in place, not duplicated. -/
theorem setAddress_url_single_addressable (bs : RedisBrokerStatus) (now : Nat) (u : String)
    (h : countType bs.Conditions RedisBrokerConditionAddressable ≤ 1) :
    ((bs.SetAddress now (some u)).Address.URL = some u ∧
      ∃ c, (bs.SetAddress now (some u)).Conditions.filter
          (fun c => decide (c.Type_ = RedisBrokerConditionAddressable)) = [c] ∧
        c.Status = ConditionTrue) ∧
    ∀ before : Nat,
      ((bs.SetAddress before none).SetAddress now (some u)).Address.URL = some u ∧
      ∃ c, ((bs.SetAddress before none).SetAddress now (some u)).Conditions.filter
          (fun c => decide (c.Type_ = RedisBrokerConditionAddressable)) = [c] ∧
        c.Status = ConditionTrue := by
  have hne : RedisBrokerConditionAddressable ≠ redisBrokerCondSet.happy := by decide
  refine ⟨⟨rfl, ?_⟩, fun before => ⟨rfl, ?_⟩⟩
  · exact filter_MarkTrue redisBrokerCondSet bs.Conditions now _ hne h
  · exact filter_MarkTrue redisBrokerCondSet _ now _ hne
      (countType_MarkFalse redisBrokerCondSet bs.Conditions before _ _ _ _ _ h)

/-- C8 at a concrete input: the status right after `InitializeConditions`, then
`SetAddress(nil)` followed by `SetAddress("https://x")`. -/
theorem setAddress_url_single_addressable_witness :
    ((((emptyStatus 1).InitializeConditions 0).SetAddress 2 (some "https://x")).Address.URL =
        some "https://x" ∧
      ∃ c, (((emptyStatus 1).InitializeConditions 0).SetAddress 2
          (some "https://x")).Conditions.filter
          (fun c => decide (c.Type_ = RedisBrokerConditionAddressable)) = [c] ∧
        c.Status = ConditionTrue) ∧
    ∀ before : Nat,
      ((((emptyStatus 1).InitializeConditions 0).SetAddress before none).SetAddress 2
        (some "https://x")).Address.URL = some "https://x" ∧
      ∃ c, ((((emptyStatus 1).InitializeConditions 0).SetAddress before none).SetAddress 2
          (some "https://x")).Conditions.filter
          (fun c => decide (c.Type_ = RedisBrokerConditionAddressable)) = [c] ∧
        c.Status = ConditionTrue :=
  setAddress_url_single_addressable ((emptyStatus 1).InitializeConditions 0) 2 "https://x"
    (by decide)

/-- C9. For every RedisBroker, whatever its generation values and however its other
dependent conditions were marked, right after `SetAddress(nil)` the top-level condition is
False (so not True) and `IsReady()` returns false. -/
theorem setAddress_nil_not_ready (b : RedisBroker) (now : Nat) :
    (∃ c, (b.Status.SetAddress now none).GetTopLevelCondition = some c ∧
        c.Status = ConditionFalse ∧ c.Status ≠ ConditionTrue) ∧
      RedisBroker.IsReady { b with Status := b.Status.SetAddress now none } = false := by
  have hagg : Aggregated redisBrokerCondSet (b.Status.SetAddress now none).Conditions :=
    aggregated_recomputeTopLevel _ _ _ happy_not_mem_dependents
  have haddr : statusOf (b.Status.SetAddress now none).Conditions
      RedisBrokerConditionAddressable = ConditionFalse := by
    obtain ⟨ltt, hl⟩ := getCondition_MarkFalse redisBrokerCondSet b.Status.Conditions now
      RedisBrokerConditionAddressable "nil URL" "URL is nil" [] (by decide)
    exact (statusOf_eq_false_iff _ _).mpr ⟨_, hl, rfl⟩
  have hsel := selectTopLevel_false_of_mem redisBrokerCondSet
    (b.Status.SetAddress now none).Conditions RedisBrokerConditionAddressable (by decide) haddr
  have htop : statusOf (b.Status.SetAddress now none).Conditions redisBrokerCondSet.happy =
      ConditionFalse := by
    unfold Aggregated at hagg
    rw [← hsel]
    exact congrArg Prod.fst hagg
  constructor
  · obtain ⟨c, hc, hs⟩ := (statusOf_eq_false_iff _ _).mp htop
    exact ⟨c, hc, hs, by rw [hs]; decide⟩
  · unfold RedisBroker.IsReady
    have hh : IsHappy redisBrokerCondSet (b.Status.SetAddress now none).Conditions = false := by
      rw [Bool.eq_false_iff]
      intro hT
      rw [isHappy_iff, htop] at hT
      exact absurd hT (by decide)
    simp only [hh, Bool.and_false]

/-! ## The readiness scenario, step by step -/

theorem scenario_status_init (g : Int) (n0 : Nat) :
    (emptyStatus g).InitializeConditions n0 =
      { ObservedGeneration := g,
        Conditions :=
          [⟨"RedisDeploymentReady", ConditionUnknown, "", "", n0⟩,
           ⟨"RedisServiceReady", ConditionUnknown, "", "", n0⟩,
           ⟨"BrokerDeploymentReady", ConditionUnknown, "", "", n0⟩,
           ⟨"BrokerServiceReady", ConditionUnknown, "", "", n0⟩,
           ⟨"Addressable", ConditionUnknown, "", "", n0⟩,
           ⟨"Ready", ConditionUnknown, "", "", n0⟩],
        Address := { URL := none } } := by
  simp [RedisBrokerStatus.InitializeConditions, InitializeConditions, initializeCondition,
    GetCondition, emptyStatus, redisBrokerCondSet, NewLivingConditionSet,
    RedisBrokerRedisDeployment, RedisBrokerRedisService, RedisBrokerBrokerDeployment,
    RedisBrokerBrokerService, RedisBrokerConditionAddressable, RedisBrokerConditionReady]

theorem scenario_status_deployment (g : Int) (n0 n1 : Nat) (r m : String) :
    ((emptyStatus g).InitializeConditions n0).PropagateRedisDeploymentAvailability n1
        ⟨[⟨"Available", "True", r, m⟩]⟩ =
      { ObservedGeneration := g,
        Conditions :=
          [⟨"RedisDeploymentReady", ConditionTrue, "", "", n1⟩,
           ⟨"RedisServiceReady", ConditionUnknown, "", "", n0⟩,
           ⟨"BrokerDeploymentReady", ConditionUnknown, "", "", n0⟩,
           ⟨"BrokerServiceReady", ConditionUnknown, "", "", n0⟩,
           ⟨"Addressable", ConditionUnknown, "", "", n0⟩,
           ⟨"Ready", ConditionUnknown, "", "", n0⟩],
        Address := { URL := none } } := by
  rw [scenario_status_init]
  simp [RedisBrokerStatus.PropagateRedisDeploymentAvailability, propagateStep,
    DeploymentAvailable, corev1ConditionTrue,
    MarkTrue, recomputeTopLevel, selectTopLevel, SetCondition, statusOf, reasonOf,
    messageOf, GetCondition, redisBrokerCondSet, NewLivingConditionSet,
    RedisBrokerRedisDeployment, RedisBrokerRedisService, RedisBrokerBrokerDeployment,
    RedisBrokerBrokerService, RedisBrokerConditionAddressable, RedisBrokerConditionReady]

theorem scenario_status_service (g : Int) (n0 n1 n2 : Nat) (r m : String) :
    (((emptyStatus g).InitializeConditions n0).PropagateRedisDeploymentAvailability n1
        ⟨[⟨"Available", "True", r, m⟩]⟩).MarkRedisServiceReady n2 =
      { ObservedGeneration := g,
        Conditions :=
          [⟨"RedisDeploymentReady", ConditionTrue, "", "", n1⟩,
           ⟨"RedisServiceReady", ConditionTrue, "", "", n2⟩,
           ⟨"BrokerDeploymentReady", ConditionUnknown, "", "", n0⟩,
           ⟨"BrokerServiceReady", ConditionUnknown, "", "", n0⟩,
           ⟨"Addressable", ConditionUnknown, "", "", n0⟩,
           ⟨"Ready", ConditionUnknown, "", "", n0⟩],
        Address := { URL := none } } := by
  rw [scenario_status_deployment]
  simp [RedisBrokerStatus.MarkRedisServiceReady,
    MarkTrue, recomputeTopLevel, selectTopLevel, SetCondition, statusOf, reasonOf,
    messageOf, GetCondition, redisBrokerCondSet, NewLivingConditionSet,
    RedisBrokerRedisDeployment, RedisBrokerRedisService, RedisBrokerBrokerDeployment,
    RedisBrokerBrokerService, RedisBrokerConditionAddressable, RedisBrokerConditionReady]

theorem scenario_status_address (g : Int) (n0 n1 n2 n3 : Nat) (r m u : String) :
    ((((emptyStatus g).InitializeConditions n0).PropagateRedisDeploymentAvailability n1
        ⟨[⟨"Available", "True", r, m⟩]⟩).MarkRedisServiceReady n2).SetAddress n3 (some u) =
      { ObservedGeneration := g,
        Conditions :=
          [⟨"RedisDeploymentReady", ConditionTrue, "", "", n1⟩,
           ⟨"RedisServiceReady", ConditionTrue, "", "", n2⟩,
           ⟨"BrokerDeploymentReady", ConditionUnknown, "", "", n0⟩,
           ⟨"BrokerServiceReady", ConditionUnknown, "", "", n0⟩,
           ⟨"Addressable", ConditionTrue, "", "", n3⟩,
           ⟨"Ready", ConditionUnknown, "", "", n0⟩],
        Address := { URL := some u } } := by
  rw [scenario_status_service]
  simp [RedisBrokerStatus.SetAddress,
    MarkTrue, recomputeTopLevel, selectTopLevel, SetCondition, statusOf, reasonOf,
    messageOf, GetCondition, redisBrokerCondSet, NewLivingConditionSet,
    RedisBrokerRedisDeployment, RedisBrokerRedisService, RedisBrokerBrokerDeployment,
    RedisBrokerBrokerService, RedisBrokerConditionAddressable, RedisBrokerConditionReady]

/-- C10, as the code has it. For a RedisBroker with `ObservedGeneration == Generation` whose
status starts from `InitializeConditions`, the top-level condition is Unknown and `IsReady()`
is false; after `PropagateRedisDeploymentAvailability` with an Available=True condition the
top-level condition is still Unknown; and after `MarkRedisServiceReady` and `SetAddress` with
a non-nil URL the top-level condition is still Unknown and `IsReady()` still returns false,
because the dependents BrokerDeploymentReady and BrokerServiceReady remain Unknown. -/
theorem readiness_scenario_stays_unknown (ns name : String) (g : Int) (n0 n1 n2 n3 : Nat)
    (r m u : String) :
    Option.map Condition.Status
        ((emptyStatus g).InitializeConditions n0).GetTopLevelCondition =
      some ConditionUnknown ∧
    RedisBroker.IsReady (RedisBroker.mk ns name g ((emptyStatus g).InitializeConditions n0)) = false ∧
    Option.map Condition.Status
        (((emptyStatus g).InitializeConditions n0).PropagateRedisDeploymentAvailability n1
          ⟨[⟨"Available", "True", r, m⟩]⟩).GetTopLevelCondition =
      some ConditionUnknown ∧
    Option.map Condition.Status
        (((((emptyStatus g).InitializeConditions n0).PropagateRedisDeploymentAvailability n1
          ⟨[⟨"Available", "True", r, m⟩]⟩).MarkRedisServiceReady n2).SetAddress n3
            (some u)).GetTopLevelCondition =
      some ConditionUnknown ∧
    RedisBroker.IsReady (RedisBroker.mk ns name g ((((((emptyStatus g).InitializeConditions n0).PropagateRedisDeploymentAvailability
        n1 ⟨[⟨"Available", "True", r, m⟩]⟩).MarkRedisServiceReady n2).SetAddress n3
          (some u)))) = false ∧
    Option.map Condition.Status
        ((((((emptyStatus g).InitializeConditions n0).PropagateRedisDeploymentAvailability n1
          ⟨[⟨"Available", "True", r, m⟩]⟩).MarkRedisServiceReady n2).SetAddress n3
            (some u)).GetCondition RedisBrokerBrokerDeployment) =
      some ConditionUnknown ∧
    Option.map Condition.Status
        ((((((emptyStatus g).InitializeConditions n0).PropagateRedisDeploymentAvailability n1
          ⟨[⟨"Available", "True", r, m⟩]⟩).MarkRedisServiceReady n2).SetAddress n3
            (some u)).GetCondition RedisBrokerBrokerService) =
      some ConditionUnknown := by
  rw [scenario_status_address, scenario_status_deployment, scenario_status_init]
  simp [RedisBroker.IsReady, IsHappy, RedisBrokerStatus.GetTopLevelCondition,
    RedisBrokerStatus.GetCondition, GetCondition, redisBrokerCondSet, NewLivingConditionSet,
    RedisBrokerBrokerDeployment, RedisBrokerBrokerService, RedisBrokerConditionReady]

/-- C10 as stated fails: at generation 1 with URL `http://broker.default.svc`, after the
whole scenario the top-level condition is Unknown, not True, and `IsReady()` is false. -/
theorem readiness_scenario_not_ready :
    Option.map Condition.Status
        (((((emptyStatus 1).InitializeConditions 0).PropagateRedisDeploymentAvailability 1
          ⟨[⟨"Available", "True", "MinimumReplicasAvailable",
            "Deployment has minimum availability."⟩]⟩).MarkRedisServiceReady 2).SetAddress 3
            (some "http://broker.default.svc")).GetTopLevelCondition =
      some ConditionUnknown ∧
    RedisBroker.IsReady (RedisBroker.mk "default" "demo" 1 ((((((emptyStatus 1).InitializeConditions 0).PropagateRedisDeploymentAvailability
        1 ⟨[⟨"Available", "True", "MinimumReplicasAvailable",
            "Deployment has minimum availability."⟩]⟩).MarkRedisServiceReady 2).SetAddress 3
          (some "http://broker.default.svc")))) = false := by
  decide

end TriggerMesh
